import Mathlib

set_option maxRecDepth 20000

/-!
Verification development for the gridist image-grid cropper
(src/src/lib.rs).  The layout geometry (config module and ImageCropper),
the resize computation, the palette quantizer and the GIF frame pipeline
are embedded as executable Lean definitions, and the claims about them
are settled as theorems below the definitions.

Modelling conventions:
- u32 / u8 / u16 values are ℕ; a cast such as `idx as u8` is modelled by
  an explicit `% 256`, and `as u16` by `% 65536`.  u32 additions that the
  claims exercise stay far below 2^32, except the y coordinate of
  `get_xy`, which is reduced `% 2^32` because one claim quantifies over
  all indices.
- u32 subtraction is modelled by truncated ℕ subtraction; the configs the
  claims use satisfy the documented invariant
  `cut_width + 2 * card_padding_horizontal ≤ container_width`, so no
  underflow occurs at them.
- f32 arithmetic in calculate_resize_dimensions is modelled bit-exactly:
  every positive finite f32 value is an exact fraction of naturals, and
  roundPosRat applies IEEE-754 binary32 round-to-nearest-even after each
  cast, division and multiplication, with `as u32` as truncation.  An
  exact-arithmetic idealization over ℚ is kept under the suffix _exact.
- the nearest-color query of the external kdtree crate is embedded twice:
  palette_nearest is the simplified lowest-index-tie model, valid for
  single-bucket palettes and unique minima, and kdAdd / kdtree_nearest
  embed the full crate (16-entry buckets, midpoint splits, best-first
  search with strict replacement), whose tie handling differs.
- the squared Euclidean color distance that the kdtree crate evaluates in
  f32 is exact integer arithmetic for channel values below 256 (every
  difference, square and sum is an integer below 2^24, hence exactly
  representable in f32), so it is modelled over ℕ.
-/

/-- Embedding of config::ImageConfig (src/src/lib.rs, lines 76-91). -/
structure ImageConfig where
  container_width : ℕ
  cut_width : ℕ
  cut_height : ℕ
  card_padding_top : ℕ
  card_padding_horizontal : ℕ
  card_padding_bottom : ℕ
  card_margin_bottom : ℕ
deriving DecidableEq

/-- Embedding of impl Default for ImageConfig (lines 93-105). -/
def default_config : ImageConfig :=
  { container_width := 928
    cut_width := 422
    cut_height := 100
    card_padding_top := 37
    card_padding_horizontal := 16
    card_padding_bottom := 16
    card_margin_bottom := 16 }

/-- Embedding of ImageConfig::card_height (lines 109-111). -/
def card_height (c : ImageConfig) : ℕ :=
  c.card_padding_top + c.cut_height + c.card_padding_bottom

/-- Embedding of ImageConfig::y_offset (lines 114-116). -/
def y_offset (c : ImageConfig) : ℕ :=
  card_height c + c.card_margin_bottom

/-- Embedding of ImageConfig::minimum_height (lines 119-121). -/
def minimum_height (c : ImageConfig) : ℕ :=
  3 * card_height c + 2 * c.card_margin_bottom

/-- Embedding of ImageCropper::get_xy (lines 144-157).  The function is
total in the source: it performs no range check on the index and returns a
pair for every u32 index.  The y component wraps at 2^32 because the
source computes it in u32 arithmetic. -/
def get_xy (c : ImageConfig) (index : ℕ) : ℕ × ℕ :=
  (if index % 2 = 0 then c.card_padding_horizontal
   else c.container_width - c.cut_width - c.card_padding_horizontal,
   (c.card_padding_top + index / 2 * y_offset c) % 4294967296)

/-- Models the dimension clamping of image::imageops::crop_imm (the
crop_dimms helper of the image crate), which crop_image invokes at
lines 258-259: the requested rectangle is intersected with the canvas,
never rejected.  Returns the width and height of the produced tile for a
canvas of size img_w × img_h. -/
def crop_imm_dims (img_w img_h x y w h : ℕ) : ℕ × ℕ :=
  (min w (img_w - min x img_w), min h (img_h - min y img_h))

/-- Embedding of the centering x offset of crop_image (lines 208-209):
the i32 expression `((resize_w - container_width) / 2).max(0)` equals 0
whenever the difference is negative, for either rounding convention of
the i32 division. -/
def crop_offset_x (c : ImageConfig) (resize_w : ℕ) : ℕ :=
  if c.container_width ≤ resize_w then (resize_w - c.container_width) / 2 else 0

/-- Embedding of the centering y offset of crop_image (lines 210-211). -/
def crop_offset_y (c : ImageConfig) (resize_h : ℕ) : ℕ :=
  if minimum_height c ≤ resize_h then (resize_h - minimum_height c) / 2 else 0

/-- Embedding of the per-slot cropping stage of ImageCropper::crop_image
(lines 226-277), as a function of the dimensions of the resampled canvas
(the Lanczos3 resampling itself is external floating-point code of the
image crate, so the canvas size is the input of the model).  For each of
the 6 slots the slot origin plus centering offset is cropped with the
clamping semantics of crop_imm; the result is the list of emitted tile
dimensions.  No code path signals a bounds failure: the error enum
GridistError of the source has no bounds variant at all, and file-naming
and save errors are outside the geometry modelled here. -/
def crop_image_tiles (c : ImageConfig) (resize_w resize_h : ℕ) : List (ℕ × ℕ) :=
  (List.range 6).map (fun i =>
    crop_imm_dims resize_w resize_h
      ((get_xy c i).1 + crop_offset_x c resize_w)
      ((get_xy c i).2 + crop_offset_y c resize_h)
      c.cut_width c.cut_height)

/-- Fuel-indexed helper for chunking a list; the fuel is always at least
the list length at the call sites, so the recursion mirrors the slice
chunking of Rust exactly while staying structurally recursive. -/
def chunksOfFuel {α : Type} (n : ℕ) : ℕ → List α → List (List α)
  | 0, _ => []
  | _ + 1, [] => []
  | fuel + 1, a :: rest => (a :: rest).take n :: chunksOfFuel n fuel ((a :: rest).drop n)

/-- Models the `chunks(n)` slice iterator of Rust: successive chunks of
size n, the last chunk possibly shorter (`chunks(0)` panics in Rust and
is never called; it is mapped to []). -/
def chunksOf {α : Type} (n : ℕ) (l : List α) : List (List α) :=
  if n = 0 then [] else chunksOfFuel n l.length l

/-- Models the `chunks_exact(n)` slice iterator of Rust: the full chunks
of size n together with the remainder of length below n. -/
def chunksExactSplit {α : Type} (n : ℕ) (l : List α) : List (List α) × List α :=
  (chunksOf n (l.take (l.length / n * n)), l.drop (l.length / n * n))

/-- Absolute difference on ℕ. -/
def absDiff (x y : ℕ) : ℕ := (x - y) + (y - x)

/-- Squared Euclidean distance between two RGB triples, as evaluated by
kdtree::distance::squared_euclidean on the f32 images of the channel
bytes; for channels below 256 every intermediate f32 value is an exactly
represented integer, so the ℕ computation is exact. -/
def sqDist (a b : ℕ × ℕ × ℕ) : ℕ :=
  absDiff a.1 b.1 * absDiff a.1 b.1 + absDiff a.2.1 b.2.1 * absDiff a.2.1 b.2.1 +
    absDiff a.2.2 b.2.2 * absDiff a.2.2 b.2.2

/-- Accumulator loop of the nearest-color query: walks the remaining
colors, keeping the index and distance of the best color seen so far and
replacing it only on a strictly smaller distance, so the lowest index
wins ties. -/
def nearestAux (p : ℕ × ℕ × ℕ) : List (ℕ × ℕ × ℕ) → ℕ → ℕ × ℕ → ℕ × ℕ
  | [], _, best => best
  | c :: rest, i, best =>
    if sqDist c p < best.2 then nearestAux p rest (i + 1) (i, sqDist c p)
    else nearestAux p rest (i + 1) best

/-- Simplified model of the nearest query of the external kdtree crate
as used by convert_to_indexed_optimized (lines 558-566): the index of a
palette color at minimal squared Euclidean distance from the query
point, ties resolved to the lowest inserted index.  This equals the
crate behavior exactly when the palette fits in a single 16-entry
bucket (bucket order is insertion order and the strict-replacement
search keeps the first minimal point), and, for any palette size,
whenever exactly one color attains the minimal distance (the regime of
the round-trip claim).  For larger palettes with ties between colors in
different leaves the crate follows its traversal order instead of the
insertion order; that full behavior is embedded below (kdAdd,
kdSearchLoop, kdtree_nearest) and disagrees with this model on such
ties.  The crate panics on an empty tree; the model returns 0, a case
no claim exercises. -/
def palette_nearest (colors : List (ℕ × ℕ × ℕ)) (p : ℕ × ℕ × ℕ) : ℕ :=
  match colors with
  | [] => 0
  | c :: rest => (nearestAux p rest 1 (0, sqDist c p)).1

/-- Coordinate d of an RGB triple, d ∈ {0, 1, 2}, as the kdtree crate
indexes the 3-dimensional points. -/
def coordAt (d : ℕ) (p : ℕ × ℕ × ℕ) : ℕ :=
  if d = 0 then p.1 else if d = 1 then p.2.1 else p.2.2

/-- Node of the kdtree crate: a leaf holds its (point, data) bucket in
insertion order; a stem holds the split dimension and the split value.
The split value min + (max - min) / 2 of byte coordinates is an exact
half-integer in f32; it is stored doubled (min + max) so the whole
embedding stays in ℕ.  The crate also stores per-node min/max bounds,
maintained incrementally; since points are never removed they always
equal the componentwise extrema of the subtree points, which is how
boxDist below recomputes them. -/
inductive KdNode where
  | leaf (bucket : List ((ℕ × ℕ × ℕ) × ℕ))
  | stem (splitDim : ℕ) (splitVal2 : ℕ) (left right : KdNode)

/-- All points of a subtree, left to right. -/
def kdPoints : KdNode → List ((ℕ × ℕ × ℕ) × ℕ)
  | KdNode.leaf b => b
  | KdNode.stem _ _ l r => kdPoints l ++ kdPoints r

/-- Minimum of coordinate d over a bucket (0 for an empty bucket, which
no caller queries). -/
def bucketMin (b : List ((ℕ × ℕ × ℕ) × ℕ)) (d : ℕ) : ℕ :=
  match b with
  | [] => 0
  | q :: rest => (rest.map (fun e => coordAt d e.1)).foldl min (coordAt d q.1)

/-- Maximum of coordinate d over a bucket. -/
def bucketMax (b : List ((ℕ × ℕ × ℕ) × ℕ)) (d : ℕ) : ℕ :=
  match b with
  | [] => 0
  | q :: rest => (rest.map (fun e => coordAt d e.1)).foldl max (coordAt d q.1)

/-- Extent of a bucket along dimension d. -/
def bucketSpread (b : List ((ℕ × ℕ × ℕ) × ℕ)) (d : ℕ) : ℕ :=
  bucketMax b d - bucketMin b d

/-- Split-dimension choice of the crate: the loop over dimensions keeps
the first dimension whose spread strictly exceeds the running maximum,
starting from zero, so the result is the lowest dimension of maximal
positive spread, and none when every spread is zero (identical
points). -/
def chooseSplitDim (b : List ((ℕ × ℕ × ℕ) × ℕ)) : Option ℕ :=
  (([0, 1, 2] : List ℕ).foldl
    (fun acc d => if acc.1 < bucketSpread b d then (bucketSpread b d, some d) else acc)
    ((0 : ℕ), (none : Option ℕ))).2

/-- The crate predicate belongs_in_left: coordinate strictly below the
split value, compared doubled. -/
def belongsLeftB (d splitVal2 : ℕ) (p : ℕ × ℕ × ℕ) : Bool :=
  decide (2 * coordAt d p < splitVal2)

/-- Redistribution order of the crate split loop, which repeatedly takes
element 0 of the vector by swap_remove: the head first, then the
remaining elements in reverse. -/
def swapRemoveOrder {α : Type} : List α → List α
  | [] => []
  | x :: rest => x :: rest.reverse

/-- Embedding of KdTree::add of the kdtree crate with the default
capacity 16 of KdTree::new: a stem routes the point by belongs_in_left;
a leaf appends to its bucket and, past 16 entries, splits at the
midpoint of the dimension of maximal spread, redistributing in
swap_remove order.  Children of a split are created directly as leaves:
a child could only overflow (and re-split) if one bucket held more than
17 points, which requires at least 17 points identical in every
coordinate (the zero-spread stall); no palette the claims exercise
reaches that case.  The fuel bounds the stem descent depth and is ample
at every call site. -/
def kdAdd : ℕ → KdNode → ((ℕ × ℕ × ℕ) × ℕ) → KdNode
  | 0, n, _ => n
  | fuel + 1, KdNode.stem d v l r, e =>
    if belongsLeftB d v e.1 then KdNode.stem d v (kdAdd fuel l e) r
    else KdNode.stem d v l (kdAdd fuel r e)
  | _ + 1, KdNode.leaf b, e =>
    let b2 := b ++ [e]
    if 16 < b2.length then
      match chooseSplitDim b2 with
      | none => KdNode.leaf b2
      | some d =>
        let v := bucketMin b2 d + bucketMax b2 d
        let parts := swapRemoveOrder b2
        KdNode.stem d v
          (KdNode.leaf (parts.filter (fun q => belongsLeftB d v q.1)))
          (KdNode.leaf (parts.filter (fun q => ! belongsLeftB d v q.1)))
    else KdNode.leaf b2

/-- Embedding of ImageCropper::create_palette_kdtree (lines 517-531):
every palette color is added in order with its index as u8 as data. -/
def create_palette_kdtree (colors : List (ℕ × ℕ × ℕ)) : KdNode :=
  (colors.foldl (fun (acc : KdNode × ℕ) c => (kdAdd 64 acc.1 (c, acc.2 % 256), acc.2 + 1))
    (KdNode.leaf [], 0)).1

/-- The crate helper distance_to_space: squared Euclidean distance from
the query point to the bounding box of a subtree; none models the
infinite distance of an empty subtree (whose bounds stay at the
infinities they are initialized with). -/
def boxDist (p : ℕ × ℕ × ℕ) (n : KdNode) : Option ℕ :=
  match kdPoints n with
  | [] => none
  | q :: rest =>
    let pts := q :: rest
    let dd := fun d =>
      let mn := bucketMin pts d
      let mx := bucketMax pts d
      let diff := if coordAt d p < mn then mn - coordAt d p
        else if mx < coordAt d p then coordAt d p - mx else 0
      diff * diff
    some (dd 0 + dd 1 + dd 2)

/-- Strict order on distances with none as infinity. -/
def optLtB : Option ℕ → Option ℕ → Bool
  | none, _ => false
  | some _, none => true
  | some x, some y => decide (x < y)

/-- Order on distances with none as infinity. -/
def optLeB : Option ℕ → Option ℕ → Bool
  | none, some _ => false
  | none, none => true
  | some _, none => true
  | some x, some y => decide (x ≤ y)

/-- Pending queue of the search, kept sorted by ascending box distance;
an entry of equal priority goes behind the existing ones.  The crate
uses a BinaryHeap whose order among equal priorities is unspecified; in
the traces the theorems evaluate at most one entry is pending at any
time, so the choice never matters. -/
def insertPending (e : Option ℕ × KdNode) :
    List (Option ℕ × KdNode) → List (Option ℕ × KdNode)
  | [] => [e]
  | q :: rest => if optLtB e.1 q.1 then e :: q :: rest else q :: insertPending e rest

/-- Descent phase of the crate nearest_step: walk from the popped node
to the leaf on the query side, pushing each sibling whose box distance
is within the evaluated distance computed at the start of the step. -/
def stepDescend : ℕ → (ℕ × ℕ × ℕ) → Option ℕ → KdNode → List (Option ℕ × KdNode) →
    List ((ℕ × ℕ × ℕ) × ℕ) × List (Option ℕ × KdNode)
  | _, _, _, KdNode.leaf b, pending => (b, pending)
  | 0, _, _, KdNode.stem _ _ _ _, pending => ([], pending)
  | fuel + 1, p, evalDist, KdNode.stem d v l r, pending =>
    let curr := if belongsLeftB d v p then l else r
    let cand := if belongsLeftB d v p then r else l
    let pending2 := if optLeB (boxDist p cand) evalDist then
        insertPending (boxDist p cand, cand) pending
      else pending
    stepDescend fuel p evalDist curr pending2

/-- Leaf phase of the crate nearest_step for num = 1: the bucket points
are scanned in order and the kept candidate is replaced only on a
strictly smaller distance, so the first minimal point of the traversal
wins. -/
def processBucket (p : ℕ × ℕ × ℕ) (best : Option (ℕ × ℕ))
    (b : List ((ℕ × ℕ × ℕ) × ℕ)) : Option (ℕ × ℕ) :=
  b.foldl (fun acc e =>
    match acc with
    | none => some (sqDist e.1 p, e.2)
    | some (bd, bi) => if sqDist e.1 p < bd then some (sqDist e.1 p, e.2) else some (bd, bi))
    best

/-- Outer loop of KdTree::nearest for num = 1: while the pending queue
is nonempty and its best box distance is within the best evaluated
distance, pop one node, descend to a leaf and evaluate its bucket. -/
def kdSearchLoop : ℕ → (ℕ × ℕ × ℕ) → List (Option ℕ × KdNode) → Option (ℕ × ℕ) →
    Option (ℕ × ℕ)
  | 0, _, _, best => best
  | _ + 1, _, [], best => best
  | fuel + 1, p, (pd, node) :: rest, best =>
    let cont := match best with
      | none => true
      | some (bd, _) => optLeB pd (some bd)
    if cont then
      let evalDist : Option ℕ := match best with
        | none => none
        | some (bd, _) => some bd
      let res := stepDescend fuel p evalDist node rest
      kdSearchLoop fuel p res.2 (processBucket p best res.1)
    else best

/-- The data returned by the kdtree crate query nearest(p, 1) over the
tree built by create_palette_kdtree: the search starts with the root
pending at priority zero. -/
def kdtree_nearest (colors : List (ℕ × ℕ × ℕ)) (p : ℕ × ℕ × ℕ) : Option ℕ :=
  (kdSearchLoop (2 * colors.length + 8) p [(some 0, create_palette_kdtree colors)]
    none).map Prod.snd

/-- Embedding of the per-pixel body of convert_to_rgba_optimized
(lines 589-607 and 612-630): palette lookup at pixel * 3 with the
(0,0,0) fallback when the full triple is not inside the palette, and
binary alpha decided by the transparent index of the frame. -/
def expandPixel (palette : List ℕ) (transparent : Option ℕ) (pixel : ℕ) : List ℕ :=
  let palette_idx := pixel * 3
  let alpha : ℕ := if transparent = some pixel then 0 else 255
  if palette_idx + 2 < palette.length then
    [palette.getD palette_idx 0, palette.getD (palette_idx + 1) 0,
      palette.getD (palette_idx + 2) 0, alpha]
  else [0, 0, 0, alpha]

/-- Embedding of ImageCropper::convert_to_rgba_optimized (lines 577-633):
the indexed buffer is walked in chunks of 8 via chunks_exact plus the
remainder, each pixel expanded by expandPixel, all results concatenated
in order (the function is sequential in the source). -/
def convert_to_rgba_optimized (buffer : List ℕ) (transparent : Option ℕ)
    (palette : List ℕ) : List ℕ :=
  ((chunksExactSplit 8 buffer).1.map
      (fun chunk => (chunk.map (expandPixel palette transparent)).flatten)).flatten ++
    ((chunksExactSplit 8 buffer).2.map (expandPixel palette transparent)).flatten

/-- Embedding of the per-pixel body of convert_to_indexed_optimized
(lines 552-567): alpha below 128 short-circuits to the transparent index,
otherwise the nearest palette color index is taken (the kdtree stores
each index as u8, hence the `% 256`).  The source indexes pixel[0..4]
and panics on a chunk shorter than 4; the claims only use buffers whose
length is a multiple of 4, where every chunk has length 4. -/
def quantizePixel (lookup : List (ℕ × (ℕ × ℕ × ℕ))) (transparent : ℕ)
    (pixel : List ℕ) : ℕ :=
  if pixel.getD 3 0 < 128 then transparent
  else
    palette_nearest (lookup.map Prod.snd)
      (pixel.getD 0 0, pixel.getD 1 0, pixel.getD 2 0) % 256

/-- Embedding of the per-chunk closure of convert_to_indexed_optimized
(lines 549-571): one chunk of at most 8 pixels (32 bytes) is quantized
pixel by pixel into a local buffer. -/
def quantize_chunk (lookup : List (ℕ × (ℕ × ℕ × ℕ))) (transparent : ℕ)
    (chunk : List ℕ) : List ℕ :=
  (chunksOf 4 chunk).map (quantizePixel lookup transparent)

/-- Embedding of ImageCropper::convert_to_indexed_optimized
(lines 534-574) under the in-order completion schedule: the 32-byte
chunks are quantized and their local buffers concatenated in chunk
order.  The source runs the chunks with rayon par_chunks(...).for_each
and appends each local buffer into an Arc<Mutex<Vec<u8>>> in completion
order, so this equals the source result only for schedules that complete
in order; indexed_outcome below models an arbitrary completion order. -/
def convert_to_indexed_optimized (rgba : List ℕ) (lookup : List (ℕ × (ℕ × ℕ × ℕ)))
    (transparent : ℕ) : List ℕ :=
  ((chunksOf 32 rgba).map (quantize_chunk lookup transparent)).flatten

/-- Models the Mutex-guarded accumulation of convert_to_indexed_optimized
(lines 546-573) under an arbitrary parallel schedule: the lock makes each
append of a local chunk buffer atomic, so the possible results are
exactly the concatenations of the per-chunk buffers in some completion
order of the chunk tasks, given by the list `order` of chunk indices. -/
def indexed_outcome (rgba : List ℕ) (lookup : List (ℕ × (ℕ × ℕ × ℕ)))
    (transparent : ℕ) (order : List ℕ) : List ℕ :=
  (order.map (fun k => quantize_chunk lookup transparent ((chunksOf 32 rgba).getD k []))).flatten

/-- Loop of create_optimized_palette_lookup: enumerated palette chunks,
chunks shorter than 3 (only a trailing incomplete triple) skipped, the
chunk position stored as u8. -/
def lookupAux : List (List ℕ) → ℕ → List (ℕ × (ℕ × ℕ × ℕ))
  | [], _ => []
  | c :: rest, idx =>
    if c.length < 3 then lookupAux rest (idx + 1)
    else (idx % 256, (c.getD 0 0, c.getD 1 0, c.getD 2 0)) :: lookupAux rest (idx + 1)

/-- Embedding of ImageCropper::create_optimized_palette_lookup
(lines 505-514). -/
def create_optimized_palette_lookup (palette : List ℕ) : List (ℕ × (ℕ × ℕ × ℕ)) :=
  lookupAux (chunksOf 3 palette) 0

/-- The 8 fixed base colors of create_default_palette (lines 472-481),
flattened: red, green, blue, yellow, magenta, cyan, white, black. -/
def base_colors : List ℕ :=
  [255, 0, 0, 0, 255, 0, 0, 0, 255, 255, 255, 0, 255, 0, 255, 0, 255, 255,
    255, 255, 255, 0, 0, 0]

/-- Fuel-bounded model of the `while palette.len() < 768` padding loop of
create_default_palette (lines 495-499); each pass appends three zero
bytes, so 768 units of fuel are more than the at most 217 passes the
loop makes from any starting length reached in the source. -/
def padLoop : ℕ → List ℕ → List ℕ
  | 0, l => l
  | fuel + 1, l => if l.length < 768 then padLoop fuel (l ++ [0, 0, 0]) else l

/-- Embedding of ImageCropper::create_default_palette (lines 469-502):
base colors, then 31 grayscale triples at steps of 8 (all below 256, so
the u8 cast is the identity), then zero padding up to 768 bytes.  The
function reads no input, so it is a constant. -/
def create_default_palette : List ℕ :=
  padLoop 768 (base_colors ++ ((List.range 31).map (fun i => [i * 8, i * 8, i * 8])).flatten)

/-- The palette described by the specification sentence of C8, written
from the words of the spec: 8 fixed colors, 31 grayscale steps at
increments of 8, every remaining entry zero, 768 bytes in total. -/
def default_palette_spec : List ℕ :=
  [255, 0, 0] ++ [0, 255, 0] ++ [0, 0, 255] ++ [255, 255, 0] ++ [255, 0, 255] ++
    [0, 255, 255] ++ [255, 255, 255] ++ [0, 0, 0] ++
    ((List.range 31).map (fun i => List.replicate 3 (8 * i))).flatten ++
    List.replicate 651 0

/-- Embedding of gif::Frame as far as crop_gif reads and writes it:
metadata fields plus the indexed pixel buffer. -/
structure GifFrame where
  delay : ℕ
  dispose : ℕ
  transparent : Option ℕ
  needs_user_input : Bool
  top : ℕ
  left : ℕ
  width : ℕ
  height : ℕ
  buffer : List ℕ
deriving DecidableEq

/-- Default frame used only as the getD fallback in statements. -/
def dummy_frame : GifFrame :=
  { delay := 0, dispose := 0, transparent := none, needs_user_input := false,
    top := 0, left := 0, width := 0, height := 0, buffer := [] }

/-- Models `collect::<Result<Vec<_>, _>>()` over a rayon indexed parallel
map (lines 386-448 and 348-461): rayon collects an indexed parallel map
in index order, and the collected Result holds the first error if any
element fails. -/
def try_map {α β : Type} (f : α → Except Unit β) : List α → Except Unit (List β)
  | [] => Except.ok []
  | a :: rest =>
    match f a with
    | Except.error e => Except.error e
    | Except.ok b =>
      match try_map f rest with
      | Except.error e => Except.error e
      | Except.ok bs => Except.ok (b :: bs)

/-- Embedding of the per-frame closure inside crop_gif (lines 388-447).
The frame buffer is expanded to RGBA against the encoder palette;
RgbaImage::from_raw fails when the buffer is shorter than
width * height * 4 (the DimensionError path); the Lanczos3 resample and
the crop to the slot rectangle are external floating-point code of the
image crate, abstracted as the resample_crop parameter (the claim about
this code path constrains only the metadata, never the pixel content);
the cropped RGBA is re-quantized; and the output frame carries the
original delay, dispose, transparent and needs_user_input values with
top = 0, left = 0 and the cut size truncated to u16 as in the source. -/
def crop_gif_frame (c : ImageConfig) (encoder_palette : List ℕ)
    (lookup : List (ℕ × (ℕ × ℕ × ℕ))) (resample_crop : List ℕ → List ℕ)
    (frame : GifFrame) : Except Unit GifFrame :=
  let rgba := convert_to_rgba_optimized frame.buffer frame.transparent encoder_palette
  if frame.width * frame.height * 4 ≤ rgba.length then
    Except.ok
      { delay := frame.delay, dispose := frame.dispose,
        transparent := frame.transparent,
        needs_user_input := frame.needs_user_input,
        top := 0, left := 0,
        width := c.cut_width % 65536, height := c.cut_height % 65536,
        buffer := convert_to_indexed_optimized (resample_crop rgba) lookup
          (frame.transparent.getD 0) }
  else Except.error ()

/-- Embedding of one output cell of crop_gif: every input frame is
processed in decode order and the results are written to the encoder in
that order (lines 386-454). -/
def crop_gif_cell (c : ImageConfig) (encoder_palette : List ℕ)
    (lookup : List (ℕ × (ℕ × ℕ × ℕ))) (resample_crop : List ℕ → List ℕ)
    (frames : List GifFrame) : Except Unit (List GifFrame) :=
  try_map (crop_gif_frame c encoder_palette lookup resample_crop) frames

/-- Embedding of the 6-cell loop of crop_gif (lines 348-461); the
resample-and-crop function depends on the cell because each cell uses
its own slot rectangle. -/
def crop_gif_cells (c : ImageConfig) (encoder_palette : List ℕ)
    (lookup : List (ℕ × (ℕ × ℕ × ℕ))) (resample_crop : ℕ → List ℕ → List ℕ)
    (frames : List GifFrame) : Except Unit (List (List GifFrame)) :=
  try_map (fun i => crop_gif_cell c encoder_palette lookup (resample_crop i) frames)
    (List.range 6)

/-- Rounds the positive fraction N / D to the nearest integer, ties to
even, as IEEE-754 round-to-nearest-even does on the significand. -/
def roundMantissa (N D : ℕ) : ℕ :=
  let n := N / D
  let r2 := 2 * (N % D)
  if r2 < D then n else if D < r2 then n + 1 else if n % 2 = 0 then n else n + 1

/-- Normalization loop of binary32 rounding: scales the positive
fraction N / D by powers of two (tracked in x and y) until it lies in
the significand window 2^23 to 2^24, rounds the significand to nearest
even, and undoes the scaling.  Correct for every positive value in the
normal f32 range, which covers everything calculate_resize_dimensions
computes at the inputs the theorems use. -/
def roundPosAux : ℕ → ℕ → ℕ → ℕ → ℕ → ℕ × ℕ
  | 0, N, D, _, _ => (N / D, 1)
  | fuel + 1, N, D, x, y =>
    if N < 8388608 * D then roundPosAux fuel (2 * N) D (x + 1) y
    else if 16777216 * D ≤ N then roundPosAux fuel N (2 * D) x (y + 1)
    else
      let m := roundMantissa N D
      if y ≤ x then (m, 2 ^ (x - y)) else (m * 2 ^ (y - x), 1)

/-- Binary32 round-to-nearest-even of the positive fraction num / den,
returned as an exact fraction (every finite f32 value is one); 300
units of fuel cover the whole f32 exponent range. -/
def roundPosRat (num den : ℕ) : ℕ × ℕ := roundPosAux 300 num den 0 0

/-- f32 division: the exact quotient, rounded. -/
def f32_div (a b : ℕ × ℕ) : ℕ × ℕ := roundPosRat (a.1 * b.2) (a.2 * b.1)

/-- f32 multiplication: the exact product, rounded. -/
def f32_mul (a b : ℕ × ℕ) : ℕ × ℕ := roundPosRat (a.1 * b.1) (a.2 * b.2)

/-- f32 comparison of the modelled values, exact on fractions. -/
def f32_le (a b : ℕ × ℕ) : Prop := a.1 * b.2 ≤ b.1 * a.2

instance (a b : ℕ × ℕ) : Decidable (f32_le a b) := by
  unfold f32_le
  infer_instance

/-- f32::max: returns the larger argument (either on equal values, which
then coincide). -/
def f32_max (a b : ℕ × ℕ) : ℕ × ℕ := if a.1 * b.2 ≤ b.1 * a.2 then b else a

/-- The `as f32` cast of a u32, rounded (identity below 2^24). -/
def f32_ofNat (n : ℕ) : ℕ × ℕ := roundPosRat n 1

/-- The `as u32` cast of a nonnegative f32: truncation toward zero. -/
def f32_trunc (a : ℕ × ℕ) : ℕ := a.1 / a.2

/-- Embedding of ImageCropper::calculate_resize_dimensions
(lines 160-184) with the f32 arithmetic modelled bit-exactly: every
cast, division and multiplication applies binary32 round-to-nearest-even
to the exact result, comparisons and max are exact on the rounded
values, and the `as u32` casts truncate. -/
def calculate_resize_dimensions (c : ImageConfig) (width height : ℕ) : ℕ × ℕ :=
  let wf := f32_ofNat width
  let hf := f32_ofNat height
  let cwf := f32_ofNat c.container_width
  let mhf := f32_ofNat (minimum_height c)
  let aspect := f32_div wf hf
  let target_aspect := f32_div cwf mhf
  if f32_le target_aspect aspect then
    let scale := f32_max (f32_div cwf wf) (f32_div mhf hf)
    (f32_trunc (f32_mul wf scale), f32_trunc (f32_mul hf scale))
  else
    (c.container_width, f32_trunc (f32_mul hf (f32_div cwf wf)))

/-- Exact-arithmetic idealization of calculate_resize_dimensions: the
same formula over ℚ with no intermediate rounding, the `as u32` casts
as Nat.floor.  The cover-branch lower bounds hold for this
idealization; the f32 computation above can truncate one below them
(see the C7 counterexample). -/
def calculate_resize_dimensions_exact (c : ImageConfig) (width height : ℕ) : ℕ × ℕ :=
  let aspect : ℚ := (width : ℚ) / (height : ℚ)
  let target_aspect : ℚ := (c.container_width : ℚ) / (minimum_height c : ℚ)
  if target_aspect ≤ aspect then
    let scale : ℚ := max ((c.container_width : ℚ) / (width : ℚ))
      ((minimum_height c : ℚ) / (height : ℚ))
    (⌊(width : ℚ) * scale⌋₊, ⌊(height : ℚ) * scale⌋₊)
  else
    (c.container_width, ⌊(height : ℚ) * ((c.container_width : ℚ) / (width : ℚ))⌋₊)

/-- Concrete 16-pixel RGBA buffer (64 bytes, two parallel chunks): 8
opaque black pixels followed by 8 opaque white pixels. -/
def two_chunk_buffer : List ℕ :=
  (List.replicate 8 [0, 0, 0, 255] ++ List.replicate 8 [255, 255, 255, 255]).flatten

/-- Concrete two-color palette lookup: index 0 black, index 1 white. -/
def black_white_lookup : List (ℕ × (ℕ × ℕ × ℕ)) :=
  [(0, (0, 0, 0)), (1, (255, 255, 255))]

/-- Concrete 17-color palette (red components 0, 60, 10, 15, 20, 25, 30,
35, 40, 45, 140, 145, 146, 147, 148, 149, 150; green and blue zero): one
color more than a kdtree bucket holds, so the 17th insertion splits the
root at red = 75 into a left leaf (reds up to 60) and a right leaf (reds
from 140). -/
def seventeen_red_palette : List (ℕ × ℕ × ℕ) :=
  [(0, 0, 0), (60, 0, 0), (10, 0, 0), (15, 0, 0), (20, 0, 0), (25, 0, 0),
    (30, 0, 0), (35, 0, 0), (40, 0, 0), (45, 0, 0), (140, 0, 0), (145, 0, 0),
    (146, 0, 0), (147, 0, 0), (148, 0, 0), (149, 0, 0), (150, 0, 0)]

/-- The claim of C2 is false at the default configuration: the code
computes minimum_height = 3 * 153 + 2 * 16 = 491 (not 797) and
get_xy 5 = (490, 37 + 2 * 169) = (490, 375) (not (490, 374)). -/
theorem C2_default_values_counterexample :
    minimum_height default_config = 491 ∧ minimum_height default_config ≠ 797 ∧
    get_xy default_config 5 = (490, 375) ∧ get_xy default_config 5 ≠ (490, 374) := by
  decide

/-- C2 amended: with the default configuration, card_height = 153,
y_offset = 169, minimum_height = 491, and the slot origins are
(16,37), (490,37), (16,206) and (490,375). -/
theorem C2_amended_default_values :
    card_height default_config = 153 ∧ y_offset default_config = 169 ∧
    minimum_height default_config = 491 ∧
    get_xy default_config 0 = (16, 37) ∧ get_xy default_config 1 = (490, 37) ∧
    get_xy default_config 2 = (16, 206) ∧ get_xy default_config 5 = (490, 375) := by
  decide

/-- The claim of C3 is false: get_xy is a total function with no
validation of the slot index, so at the out-of-range index 6 it returns
coordinates (the row below the grid) instead of failing; no
ConfigError::InvalidSlot exists anywhere in the source. -/
theorem C3_get_xy_total_counterexample :
    get_xy default_config 6 = (16, 544) ∧ get_xy default_config 7 = (490, 544) := by
  decide

/-- C3 amended: get_xy performs no range check; for every index,
inside or outside [0,6), it returns the coordinates given by the same
two-column formula, and index + 6 lands exactly one grid height (507 =
3 * y_offset) below index, continuing the pattern indefinitely. -/
theorem C3_amended_get_xy_total :
    (∀ i : ℕ, get_xy default_config i =
      (if i % 2 = 0 then 16 else 490, (37 + i / 2 * 169) % 4294967296)) ∧
    (∀ i : ℕ, get_xy default_config (i + 6) =
      ((get_xy default_config i).1, ((get_xy default_config i).2 + 507) % 4294967296)) := by
  constructor
  · intro i
    rfl
  · intro i
    have h2 : (i + 6) % 2 = i % 2 := by omega
    have h3 : (i + 6) / 2 = i / 2 + 3 := by omega
    simp only [get_xy, default_config, y_offset, card_height, h2, h3, Prod.mk.injEq, true_and]
    generalize i / 2 = j
    omega

/-- The claim of C1 is false: on a resampled canvas of 928 × 474 with the
default configuration, the bottom-row slot rectangles (origin y = 375,
height 100, bottom edge 475) exceed the canvas, yet the crop stage
raises no error — GridistError has no bounds variant — and instead emits
clamped 422 × 99 tiles, i.e. undersized tiles. -/
theorem C1_clamp_counterexample :
    (get_xy default_config 5).2 + crop_offset_y default_config 474 +
        default_config.cut_height = 475 ∧
    474 < 475 ∧
    crop_image_tiles default_config 928 474 =
      [(422, 100), (422, 100), (422, 100), (422, 100), (422, 99), (422, 99)] ∧
    (crop_image_tiles default_config 928 474).getD 5 (0, 0) ≠ (422, 100) := by
  decide

/-- C1 amended: crop_image never fails on a slot rectangle that exceeds
the resampled canvas; crop_imm clamps the rectangle instead, so each of
the 6 emitted tiles is at most cut_width × cut_height, and a tile has the
full size exactly when its rectangle fits inside the canvas. -/
theorem C1_amended_clamping (c : ImageConfig) (rw rh : ℕ) (hw : 0 < c.cut_width)
    (hh : 0 < c.cut_height) (i : ℕ) (hi : i < 6) :
    (crop_image_tiles c rw rh).length = 6 ∧
    ((crop_image_tiles c rw rh).getD i (0, 0)).1 ≤ c.cut_width ∧
    ((crop_image_tiles c rw rh).getD i (0, 0)).2 ≤ c.cut_height ∧
    ((crop_image_tiles c rw rh).getD i (0, 0) = (c.cut_width, c.cut_height) ↔
      (get_xy c i).1 + crop_offset_x c rw + c.cut_width ≤ rw ∧
      (get_xy c i).2 + crop_offset_y c rh + c.cut_height ≤ rh) := by
  have hlen : (crop_image_tiles c rw rh).length = 6 := by
    simp [crop_image_tiles]
  have hget : (crop_image_tiles c rw rh).getD i (0, 0) =
      crop_imm_dims rw rh ((get_xy c i).1 + crop_offset_x c rw)
        ((get_xy c i).2 + crop_offset_y c rh) c.cut_width c.cut_height := by
    have hi6 : i < (List.range 6).length := by simpa using hi
    simp [crop_image_tiles, List.getD_eq_getElem?_getD, List.getElem?_map,
      List.getElem?_range, hi]
  refine ⟨hlen, ?_, ?_, ?_⟩
  · rw [hget]; simp [crop_imm_dims]
  · rw [hget]; simp [crop_imm_dims]
  · rw [hget]
    simp only [crop_imm_dims, Prod.mk.injEq]
    omega

/-- Witness for C1_amended_clamping at the default configuration, a
1000 × 600 canvas and slot 0, where every hypothesis holds and the slot
rectangle fits. -/
theorem C1_amended_clamping_witness :
    0 < default_config.cut_width ∧ 0 < default_config.cut_height ∧ 0 < 6 ∧
    ((crop_image_tiles default_config 1000 600).length = 6 ∧
      ((crop_image_tiles default_config 1000 600).getD 0 (0, 0)).1 ≤
        default_config.cut_width ∧
      ((crop_image_tiles default_config 1000 600).getD 0 (0, 0)).2 ≤
        default_config.cut_height ∧
      ((crop_image_tiles default_config 1000 600).getD 0 (0, 0) =
          (default_config.cut_width, default_config.cut_height) ↔
        (get_xy default_config 0).1 + crop_offset_x default_config 1000 +
            default_config.cut_width ≤ 1000 ∧
        (get_xy default_config 0).2 + crop_offset_y default_config 600 +
            default_config.cut_height ≤ 600)) :=
  ⟨by decide, by decide, by decide,
    C1_amended_clamping default_config 1000 600 (by decide) (by decide) 0 (by decide)⟩

/-- C8: the default fallback palette is exactly the 768-byte constant
described by the spec — the 8 fixed colors in order, then 31 grayscale
steps at increments of 8, then zeros — and, being a constant definition
reading no input, it is identical across runs. -/
theorem C8_default_palette :
    create_default_palette = default_palette_spec ∧
    create_default_palette.length = 768 := by
  decide

theorem chunksOfFuel_congr {α : Type} (n : ℕ) (hn : 0 < n) :
    ∀ (f1 f2 : ℕ) (l : List α), l.length ≤ f1 → l.length ≤ f2 →
      chunksOfFuel n f1 l = chunksOfFuel n f2 l := by
  intro f1
  induction f1 with
  | zero =>
    intro f2 l h1 h2
    have : l = [] := by
      cases l with
      | nil => rfl
      | cons a rest => simp at h1
    subst this
    cases f2 <;> rfl
  | succ f ih =>
    intro f2 l h1 h2
    cases l with
    | nil => cases f2 <;> rfl
    | cons a rest =>
      cases f2 with
      | zero => simp at h2
      | succ f2x =>
        show ((a :: rest).take n :: chunksOfFuel n f ((a :: rest).drop n)) =
          ((a :: rest).take n :: chunksOfFuel n f2x ((a :: rest).drop n))
        have hd : ((a :: rest).drop n).length = rest.length + 1 - n := by
          simp
        refine congrArg _ (ih f2x ((a :: rest).drop n) ?_ ?_)
        · rw [hd]; simp at h1; omega
        · rw [hd]; simp at h2; omega

theorem chunksOf_nil {α : Type} (n : ℕ) : chunksOf n ([] : List α) = [] := by
  unfold chunksOf
  split <;> rfl

theorem chunksOf_cons {α : Type} (n : ℕ) (hn : 0 < n) (a : α) (rest : List α) :
    chunksOf n (a :: rest) = (a :: rest).take n :: chunksOf n ((a :: rest).drop n) := by
  unfold chunksOf
  rw [if_neg (by omega), if_neg (by omega)]
  show ((a :: rest).take n :: chunksOfFuel n rest.length ((a :: rest).drop n)) = _
  refine congrArg _ (chunksOfFuel_congr n hn _ _ _ ?_ ?_)
  · simp
    omega
  · simp

theorem chunksOf_singleton_of_le {α : Type} (n : ℕ) (hn : 0 < n) (l : List α)
    (hne : l ≠ []) (hlen : l.length ≤ n) : chunksOf n l = [l] := by
  cases l with
  | nil => cases hne rfl
  | cons a rest =>
    rw [chunksOf_cons n hn, List.take_of_length_le hlen, List.drop_eq_nil_of_le hlen,
      chunksOf_nil]

theorem absDiff_eq_zero {x y : ℕ} (h : absDiff x y = 0) : x = y := by
  simp [absDiff] at h
  omega

theorem sqDist_self (a : ℕ × ℕ × ℕ) : sqDist a a = 0 := by
  simp [sqDist, absDiff]

theorem sqDist_eq_zero {a b : ℕ × ℕ × ℕ} (h : sqDist a b = 0) : a = b := by
  obtain ⟨a1, a2, a3⟩ := a
  obtain ⟨b1, b2, b3⟩ := b
  simp only [sqDist] at h
  have hz : absDiff a1 b1 * absDiff a1 b1 = 0 ∧ absDiff a2 b2 * absDiff a2 b2 = 0 ∧
      absDiff a3 b3 * absDiff a3 b3 = 0 := by omega
  have e1 := absDiff_eq_zero (mul_self_eq_zero.mp hz.1)
  have e2 := absDiff_eq_zero (mul_self_eq_zero.mp hz.2.1)
  have e3 := absDiff_eq_zero (mul_self_eq_zero.mp hz.2.2)
  subst e1; subst e2; subst e3
  rfl

theorem nearestAux_spec (p : ℕ × ℕ × ℕ) (colors : List (ℕ × ℕ × ℕ)) :
    ∀ (rest : List (ℕ × ℕ × ℕ)) (i : ℕ) (best : ℕ × ℕ),
      (∀ m : ℕ, rest[m]? = colors[i + m]?) →
      i + rest.length = colors.length →
      best.1 < i →
      best.2 = sqDist (colors.getD best.1 (0, 0, 0)) p →
      (∀ k, k < i → best.2 ≤ sqDist (colors.getD k (0, 0, 0)) p) →
      (∀ k, k < best.1 → best.2 < sqDist (colors.getD k (0, 0, 0)) p) →
      (nearestAux p rest i best).1 < colors.length ∧
      (nearestAux p rest i best).2 =
        sqDist (colors.getD (nearestAux p rest i best).1 (0, 0, 0)) p ∧
      (∀ k, k < colors.length →
        (nearestAux p rest i best).2 ≤ sqDist (colors.getD k (0, 0, 0)) p) ∧
      (∀ k, k < (nearestAux p rest i best).1 →
        (nearestAux p rest i best).2 < sqDist (colors.getD k (0, 0, 0)) p) := by
  intro rest
  induction rest with
  | nil =>
    intro i best hsuf hlen hbi hbd hmin hstrict
    have hieq : i = colors.length := by simpa using hlen
    subst hieq
    exact ⟨hbi, hbd, hmin, hstrict⟩
  | cons c t ih =>
    intro i best hsuf hlen hbi hbd hmin hstrict
    have hc : colors[i]? = some c := by
      have h0 := hsuf 0
      simp at h0
      exact h0.symm
    have hilt : i < colors.length := by
      simp at hlen
      omega
    have hci : colors.getD i (0, 0, 0) = c := by
      simp [List.getD_eq_getElem?_getD, hc]
    have hsuf2 : ∀ m : ℕ, t[m]? = colors[i + 1 + m]? := by
      intro m
      have h := hsuf (m + 1)
      have harith : i + (m + 1) = i + 1 + m := by omega
      rw [harith] at h
      simpa using h
    have hlen2 : i + 1 + t.length = colors.length := by
      simp at hlen
      omega
    have hred : nearestAux p (c :: t) i best =
        if sqDist c p < best.2 then nearestAux p t (i + 1) (i, sqDist c p)
        else nearestAux p t (i + 1) best := rfl
    by_cases hlt : sqDist c p < best.2
    · rw [hred, if_pos hlt]
      refine ih (i + 1) (i, sqDist c p) hsuf2 hlen2 (by omega)
        (by show sqDist c p = sqDist (colors.getD i (0, 0, 0)) p; rw [hci]) ?_ ?_
      · intro k hk
        rcases Nat.lt_or_ge k i with hki | hki
        · exact le_of_lt (lt_of_lt_of_le hlt (hmin k hki))
        · have hki2 : k = i := by omega
          subst hki2
          rw [hci]
      · intro k hk
        exact lt_of_lt_of_le hlt (hmin k hk)
    · rw [hred, if_neg hlt]
      refine ih (i + 1) best hsuf2 hlen2 (by omega) hbd ?_ hstrict
      intro k hk
      rcases Nat.lt_or_ge k i with hki | hki
      · exact hmin k hki
      · have : k = i := by omega
        subst this
        rw [hci]
        exact le_of_not_lt hlt

theorem palette_nearest_spec (colors : List (ℕ × ℕ × ℕ)) (p : ℕ × ℕ × ℕ)
    (hne : colors ≠ []) :
    palette_nearest colors p < colors.length ∧
    (∀ k, k < colors.length →
      sqDist (colors.getD (palette_nearest colors p) (0, 0, 0)) p ≤
        sqDist (colors.getD k (0, 0, 0)) p) ∧
    (∀ k, k < palette_nearest colors p →
      sqDist (colors.getD (palette_nearest colors p) (0, 0, 0)) p <
        sqDist (colors.getD k (0, 0, 0)) p) := by
  cases colors with
  | nil => cases hne rfl
  | cons c rest =>
    have h := nearestAux_spec p (c :: rest) rest 1 (0, sqDist c p)
      (by
        intro m
        have : 1 + m = m + 1 := by omega
        rw [this]
        simp)
      (by simp; omega)
      (by omega)
      (by simp)
      (by
        intro k hk
        have : k = 0 := by omega
        subst this
        simp)
      (by intro k hk; omega)
    obtain ⟨h1, h2, h3, h4⟩ := h
    refine ⟨h1, ?_, ?_⟩
    · intro k hk
      have := h3 k hk
      rwa [h2] at this
    · intro k hk
      have := h4 k hk
      rwa [h2] at this

theorem convert_rgba_singleton (palette : List ℕ) (transparent : Option ℕ) (j : ℕ) :
    convert_to_rgba_optimized [j] transparent palette = expandPixel palette transparent j := by
  simp [convert_to_rgba_optimized, chunksExactSplit, chunksOf_nil]

theorem expandPixel_alpha (palette : List ℕ) (transparent : Option ℕ) (i : ℕ) :
    (expandPixel palette transparent i).getD 3 0 =
      if transparent = some i then 0 else 255 := by
  simp only [expandPixel]
  split <;> rfl

/-- The tie-breaking half of C4 is false of the program: on the 17-color
palette seventeen_red_palette the query (100, 0, 0) is at squared
distance 1600 from both index 1 (red 60) and index 10 (red 140).  The
palette no longer fits in one 16-entry kdtree bucket, the tree splits at
red = 75, and the crate search — embedded in kdtree_nearest — descends
to the query side (the right leaf) first and keeps its minimal point
under strict replacement, returning index 10 rather than the lowest
tied index 1 that the claim asserts (and that the linear lowest-index
model palette_nearest returns). -/
theorem C4_tie_order_counterexample :
    seventeen_red_palette.length = 17 ∧
    sqDist (seventeen_red_palette.getD 1 (0, 0, 0)) (100, 0, 0) = 1600 ∧
    sqDist (seventeen_red_palette.getD 10 (0, 0, 0)) (100, 0, 0) = 1600 ∧
    kdtree_nearest seventeen_red_palette (100, 0, 0) = some 10 ∧
    palette_nearest seventeen_red_palette (100, 0, 0) = 1 ∧
    (10 : ℕ) ≠ 1 := by
  decide

/-- C4 amended: on a pixel with alpha below 128 the quantizer returns
the transparent index of the frame without consulting the palette;
otherwise it returns the index of a palette color at minimal squared
Euclidean RGB distance, ignoring the alpha channel, and ties go to the
lowest palette index when the palette fits in a single 16-entry kdtree
bucket — the regime in which palette_nearest coincides with the crate
search; for larger palettes a cross-leaf tie follows the traversal
order instead (see the counterexample). -/
theorem C4_amended_quantize_nearest (lookup : List (ℕ × (ℕ × ℕ × ℕ))) (transparent : ℕ)
    (r g b a : ℕ) :
    (a < 128 → quantizePixel lookup transparent [r, g, b, a] = transparent) ∧
    (128 ≤ a → lookup ≠ [] → lookup.length ≤ 16 →
      quantizePixel lookup transparent [r, g, b, a] < lookup.length ∧
      (∀ k, k < lookup.length →
        sqDist ((lookup.map Prod.snd).getD
            (quantizePixel lookup transparent [r, g, b, a]) (0, 0, 0)) (r, g, b) ≤
          sqDist ((lookup.map Prod.snd).getD k (0, 0, 0)) (r, g, b)) ∧
      (∀ k, k < quantizePixel lookup transparent [r, g, b, a] →
        sqDist ((lookup.map Prod.snd).getD
            (quantizePixel lookup transparent [r, g, b, a]) (0, 0, 0)) (r, g, b) <
          sqDist ((lookup.map Prod.snd).getD k (0, 0, 0)) (r, g, b)) ∧
      (∀ a2, 128 ≤ a2 →
        quantizePixel lookup transparent [r, g, b, a] =
          quantizePixel lookup transparent [r, g, b, a2])) := by
  have hg3 : ([r, g, b, a] : List ℕ).getD 3 0 = a := rfl
  constructor
  · intro ha
    simp only [quantizePixel, hg3, if_pos ha]
  · intro ha hne hlen
    have hqe : quantizePixel lookup transparent [r, g, b, a] =
        palette_nearest (lookup.map Prod.snd) (r, g, b) % 256 := by
      simp only [quantizePixel, hg3, if_neg (Nat.not_lt.mpr ha)]
      rfl
    have hcolne : lookup.map Prod.snd ≠ [] := by
      simpa using hne
    have hcl : (lookup.map Prod.snd).length = lookup.length := by simp
    obtain ⟨h1, h2, h3⟩ := palette_nearest_spec (lookup.map Prod.snd) (r, g, b) hcolne
    have hmod : palette_nearest (lookup.map Prod.snd) (r, g, b) % 256 =
        palette_nearest (lookup.map Prod.snd) (r, g, b) :=
      Nat.mod_eq_of_lt (by omega)
    rw [hqe, hmod]
    refine ⟨by omega, ?_, ?_, ?_⟩
    · intro k hk
      exact h2 k (by omega)
    · intro k hk
      exact h3 k hk
    · intro a2 ha2
      have hg3b : ([r, g, b, a2] : List ℕ).getD 3 0 = a2 := rfl
      simp only [quantizePixel, hg3b, if_neg (Nat.not_lt.mpr ha2)]
      show palette_nearest (lookup.map Prod.snd) (r, g, b) =
        palette_nearest (lookup.map Prod.snd) (r, g, b) % 256
      exact hmod.symm

/-- Witness for C4_amended_quantize_nearest: a two-entry (single-bucket)
palette whose entries tie at distance 0 from the query color — the
quantizer picks index 0, as the crate does within one bucket — and a
transparent pixel that maps straight to the transparent index 7. -/
theorem C4_amended_quantize_nearest_witness :
    quantizePixel [(0, (9, 9, 9)), (1, (9, 9, 9))] 7 [9, 9, 9, 50] = 7 ∧
    quantizePixel [(0, (9, 9, 9)), (1, (9, 9, 9))] 7 [9, 9, 9, 255] <
      ([(0, (9, 9, 9)), (1, (9, 9, 9))] : List (ℕ × (ℕ × ℕ × ℕ))).length ∧
    quantizePixel [(0, (9, 9, 9)), (1, (9, 9, 9))] 7 [9, 9, 9, 255] = 0 ∧
    kdtree_nearest [(9, 9, 9), (9, 9, 9)] (9, 9, 9) = some 0 :=
  ⟨(C4_amended_quantize_nearest [(0, (9, 9, 9)), (1, (9, 9, 9))] 7 9 9 9 50).1 (by decide),
    ((C4_amended_quantize_nearest [(0, (9, 9, 9)), (1, (9, 9, 9))] 7 9 9 9 255).2
      (by decide) (by decide) (by decide)).1,
    by decide, by decide⟩

/-- C6: expanding one indexed pixel i looks up the palette bytes at
position i * 3 (a full triple must fit, i.e. i * 3 + 2 inside the
palette); when position i * 3 is outside the palette the color falls
back to (0,0,0); and the produced alpha is 0 exactly when i is the
transparent index of the frame, else 255 — never anything else. -/
theorem C6_expand_rgba (palette : List ℕ) (transparent : Option ℕ) (i : ℕ) :
    (i * 3 + 2 < palette.length →
      convert_to_rgba_optimized [i] transparent palette =
        [palette.getD (i * 3) 0, palette.getD (i * 3 + 1) 0, palette.getD (i * 3 + 2) 0,
          if transparent = some i then 0 else 255]) ∧
    (palette.length ≤ i * 3 →
      (convert_to_rgba_optimized [i] transparent palette).take 3 = [0, 0, 0]) ∧
    ((convert_to_rgba_optimized [i] transparent palette).getD 3 0 = 0 ↔
      transparent = some i) ∧
    ((convert_to_rgba_optimized [i] transparent palette).getD 3 0 = 0 ∨
      (convert_to_rgba_optimized [i] transparent palette).getD 3 0 = 255) := by
  rw [convert_rgba_singleton]
  refine ⟨?_, ?_, ?_, ?_⟩
  · intro h
    simp only [expandPixel, if_pos h]
  · intro h
    have hno : ¬ (i * 3 + 2 < palette.length) := by omega
    simp only [expandPixel, if_neg hno]
    rfl
  · rw [expandPixel_alpha]
    by_cases ht : transparent = some i
    · simp [ht]
    · simp [ht]
  · rw [expandPixel_alpha]
    by_cases ht : transparent = some i
    · left; simp [ht]
    · right; simp [ht]

/-- Witness for C6_expand_rgba: a 6-byte palette, pixel index 1 in
range, with index 1 transparent. -/
theorem C6_expand_rgba_witness :
    1 * 3 + 2 < ([10, 20, 30, 40, 50, 60] : List ℕ).length ∧
    convert_to_rgba_optimized [1] (some 1) [10, 20, 30, 40, 50, 60] =
      [([10, 20, 30, 40, 50, 60] : List ℕ).getD (1 * 3) 0,
        ([10, 20, 30, 40, 50, 60] : List ℕ).getD (1 * 3 + 1) 0,
        ([10, 20, 30, 40, 50, 60] : List ℕ).getD (1 * 3 + 2) 0,
        if (some 1 : Option ℕ) = some 1 then 0 else 255] :=
  ⟨by decide, (C6_expand_rgba [10, 20, 30, 40, 50, 60] (some 1) 1).1 (by decide)⟩

theorem lookupAux_snd_congr : ∀ (chs : List (List ℕ)) (i j : ℕ),
    (lookupAux chs i).map Prod.snd = (lookupAux chs j).map Prod.snd := by
  intro chs
  induction chs with
  | nil => intro i j; rfl
  | cons c rest ih =>
    intro i j
    unfold lookupAux
    by_cases h : c.length < 3
    · simp only [if_pos h]
      exact ih (i + 1) (j + 1)
    · simp only [if_neg h, List.map_cons]
      rw [ih (i + 1) (j + 1)]

theorem lookup_colors_short (pal : List ℕ) (h : pal.length < 3) :
    (create_optimized_palette_lookup pal).map Prod.snd = [] := by
  cases pal with
  | nil =>
    rw [create_optimized_palette_lookup, chunksOf_nil]
    rfl
  | cons a rest =>
    rw [create_optimized_palette_lookup,
      chunksOf_singleton_of_le 3 (by omega) _ (by simp) (by simp at h; simp; omega)]
    unfold lookupAux
    rw [if_pos h]
    rfl

theorem lookup_colors_cons (a b c : ℕ) (rest : List ℕ) :
    (create_optimized_palette_lookup (a :: b :: c :: rest)).map Prod.snd =
      (a, b, c) :: (create_optimized_palette_lookup rest).map Prod.snd := by
  have ht : (a :: b :: c :: rest).take 3 = [a, b, c] := rfl
  have hd : (a :: b :: c :: rest).drop 3 = rest := rfl
  rw [create_optimized_palette_lookup, chunksOf_cons 3 (by omega), ht, hd]
  unfold lookupAux
  rw [if_neg (by simp)]
  simp only [List.map_cons]
  rw [lookupAux_snd_congr (chunksOf 3 rest) 1 0]
  rfl

theorem lookup_cons3_shape (pal : List ℕ) (h : ¬ pal.length < 3) :
    ∃ a b c rest, pal = a :: b :: c :: rest := by
  cases pal with
  | nil => exact absurd (by simp) h
  | cons a t1 =>
    cases t1 with
    | nil => exact absurd (by simp) h
    | cons b t2 =>
      cases t2 with
      | nil => exact absurd (by simp) h
      | cons c rest => exact ⟨a, b, c, rest, rfl⟩

theorem lookup_colors_length : ∀ (n : ℕ) (pal : List ℕ), pal.length ≤ n →
    ((create_optimized_palette_lookup pal).map Prod.snd).length = pal.length / 3 := by
  intro n
  induction n with
  | zero =>
    intro pal h
    have : pal.length < 3 := by omega
    rw [lookup_colors_short pal this]
    simp
    omega
  | succ n ih =>
    intro pal h
    by_cases hlt : pal.length < 3
    · rw [lookup_colors_short pal hlt]
      simp
      omega
    · obtain ⟨a, b, c, rest, rfl⟩ := lookup_cons3_shape pal hlt
      rw [lookup_colors_cons]
      simp only [List.length_cons]
      rw [ih rest (by simp at h; omega)]
      omega

theorem getD_cons3 (x y z : ℕ) (l : List ℕ) (m : ℕ) :
    (x :: y :: z :: l).getD (m + 3) 0 = l.getD m 0 := by
  show (x :: y :: z :: l).getD (m + 2 + 1) 0 = l.getD m 0
  rw [List.getD_cons_succ]
  show (y :: z :: l).getD (m + 1 + 1) 0 = l.getD m 0
  rw [List.getD_cons_succ]
  show (z :: l).getD (m + 1) 0 = l.getD m 0
  rw [List.getD_cons_succ]

theorem lookup_colors_getD : ∀ (n : ℕ) (pal : List ℕ), pal.length ≤ n →
    ∀ i, 3 * i + 2 < pal.length →
    ((create_optimized_palette_lookup pal).map Prod.snd).getD i (0, 0, 0) =
      (pal.getD (3 * i) 0, pal.getD (3 * i + 1) 0, pal.getD (3 * i + 2) 0) := by
  intro n
  induction n with
  | zero =>
    intro pal h i hi
    omega
  | succ n ih =>
    intro pal h i hi
    by_cases hlt : pal.length < 3
    · omega
    · obtain ⟨a, b, c, rest, rfl⟩ := lookup_cons3_shape pal hlt
      rw [lookup_colors_cons]
      cases i with
      | zero => rfl
      | succ m =>
        rw [List.getD_cons_succ]
        have hrest : 3 * m + 2 < rest.length := by simp at hi; omega
        rw [ih rest (by simp at h; omega) m hrest]
        have e0 : 3 * (m + 1) = 3 * m + 3 := by omega
        rw [e0]
        have e1 : 3 * m + 3 + 1 = 3 * m + 1 + 3 := by omega
        have e2 : 3 * m + 3 + 2 = 3 * m + 2 + 3 := by omega
        rw [e1, e2, getD_cons3, getD_cons3, getD_cons3]

theorem convert_indexed_single (x0 x1 x2 x3 : ℕ) (lookup : List (ℕ × (ℕ × ℕ × ℕ)))
    (t : ℕ) :
    convert_to_indexed_optimized [x0, x1, x2, x3] lookup t =
      [quantizePixel lookup t [x0, x1, x2, x3]] := by
  rw [convert_to_indexed_optimized,
    chunksOf_singleton_of_le 32 (by omega) _ (by simp) (by simp)]
  simp only [List.map_cons, List.map_nil]
  rw [quantize_chunk, chunksOf_singleton_of_le 4 (by omega) _ (by simp) (by simp)]
  simp

/-- C5: expanding a non-transparent in-range index of a duplicate-free
palette, re-quantizing the resulting RGBA pixel against the same palette
and expanding again reproduces the first expansion, because the nearest
color to a palette color is that color itself at distance 0, unique when
no duplicates exist.  The length bound is the GIF constraint of at most
256 palette entries (768 bytes). -/
theorem C5_roundtrip (palette : List ℕ) (transparent : Option ℕ) (i : ℕ)
    (hpal : palette.length ≤ 768)
    (hnodup : ((create_optimized_palette_lookup palette).map Prod.snd).Nodup)
    (hi : i * 3 + 2 < palette.length)
    (htr : transparent ≠ some i) :
    convert_to_rgba_optimized
      (convert_to_indexed_optimized (convert_to_rgba_optimized [i] transparent palette)
        (create_optimized_palette_lookup palette) (transparent.getD 0))
      transparent palette =
      convert_to_rgba_optimized [i] transparent palette := by
  have hmul : i * 3 = 3 * i := Nat.mul_comm i 3
  have hi3 : 3 * i + 2 < palette.length := by omega
  have hexp : convert_to_rgba_optimized [i] transparent palette =
      [palette.getD (3 * i) 0, palette.getD (3 * i + 1) 0, palette.getD (3 * i + 2) 0,
        255] := by
    rw [convert_rgba_singleton]
    simp only [expandPixel]
    rw [if_pos hi, if_neg htr, hmul]
  have hcl : ((create_optimized_palette_lookup palette).map Prod.snd).length =
      palette.length / 3 := lookup_colors_length palette.length palette le_rfl
  have hilt : i < ((create_optimized_palette_lookup palette).map Prod.snd).length := by
    rw [hcl]
    omega
  have hgd : ((create_optimized_palette_lookup palette).map Prod.snd).getD i (0, 0, 0) =
      (palette.getD (3 * i) 0, palette.getD (3 * i + 1) 0, palette.getD (3 * i + 2) 0) :=
    lookup_colors_getD palette.length palette le_rfl i hi3
  have hne : (create_optimized_palette_lookup palette).map Prod.snd ≠ [] := by
    intro hcontra
    rw [hcontra] at hilt
    simp at hilt
  obtain ⟨h1, h2, h3⟩ :=
    palette_nearest_spec ((create_optimized_palette_lookup palette).map Prod.snd)
      (palette.getD (3 * i) 0, palette.getD (3 * i + 1) 0, palette.getD (3 * i + 2) 0) hne
  have hd0 := h2 i hilt
  rw [hgd, sqDist_self] at hd0
  have hcol := sqDist_eq_zero (Nat.le_zero.mp hd0)
  have hgij : ((create_optimized_palette_lookup palette).map Prod.snd).getD
      (palette_nearest ((create_optimized_palette_lookup palette).map Prod.snd)
        (palette.getD (3 * i) 0, palette.getD (3 * i + 1) 0, palette.getD (3 * i + 2) 0))
      (0, 0, 0) =
      ((create_optimized_palette_lookup palette).map Prod.snd).getD i (0, 0, 0) := by
    rw [hcol, hgd]
  have hget_j : ((create_optimized_palette_lookup palette).map Prod.snd).getD
      (palette_nearest ((create_optimized_palette_lookup palette).map Prod.snd)
        (palette.getD (3 * i) 0, palette.getD (3 * i + 1) 0, palette.getD (3 * i + 2) 0))
      (0, 0, 0) =
      ((create_optimized_palette_lookup palette).map Prod.snd).get ⟨_, h1⟩ := by
    rw [List.getD_eq_getElem?_getD, List.getElem?_eq_getElem h1]
    rfl
  have hget_i : ((create_optimized_palette_lookup palette).map Prod.snd).getD i (0, 0, 0) =
      ((create_optimized_palette_lookup palette).map Prod.snd).get ⟨i, hilt⟩ := by
    rw [List.getD_eq_getElem?_getD, List.getElem?_eq_getElem hilt]
    rfl
  have hsame : ((create_optimized_palette_lookup palette).map Prod.snd).get ⟨_, h1⟩ =
      ((create_optimized_palette_lookup palette).map Prod.snd).get ⟨i, hilt⟩ := by
    rw [← hget_j, ← hget_i, hgij]
  have hji : palette_nearest ((create_optimized_palette_lookup palette).map Prod.snd)
      (palette.getD (3 * i) 0, palette.getD (3 * i + 1) 0, palette.getD (3 * i + 2) 0) = i :=
    congrArg Fin.val ((List.nodup_iff_injective_get.mp hnodup) hsame)
  have hq : quantizePixel (create_optimized_palette_lookup palette) (transparent.getD 0)
      [palette.getD (3 * i) 0, palette.getD (3 * i + 1) 0, palette.getD (3 * i + 2) 0,
        255] = i := by
    have hg3 : ([palette.getD (3 * i) 0, palette.getD (3 * i + 1) 0,
        palette.getD (3 * i + 2) 0, 255] : List ℕ).getD 3 0 = 255 := rfl
    simp only [quantizePixel, hg3]
    rw [if_neg (by omega)]
    show palette_nearest ((create_optimized_palette_lookup palette).map Prod.snd)
      (palette.getD (3 * i) 0, palette.getD (3 * i + 1) 0, palette.getD (3 * i + 2) 0) %
        256 = i
    rw [hji]
    have : i < 256 := by omega
    exact Nat.mod_eq_of_lt this
  rw [hexp, convert_indexed_single, hq, hexp]

/-- Witness for C5_roundtrip: the two-color palette red, green with
index 1 (green), no transparent index. -/
theorem C5_roundtrip_witness :
    (([255, 0, 0, 0, 255, 0] : List ℕ).length ≤ 768 ∧
      ((create_optimized_palette_lookup [255, 0, 0, 0, 255, 0]).map Prod.snd).Nodup ∧
      1 * 3 + 2 < ([255, 0, 0, 0, 255, 0] : List ℕ).length ∧
      (none : Option ℕ) ≠ some 1) ∧
    convert_to_rgba_optimized
        (convert_to_indexed_optimized
          (convert_to_rgba_optimized [1] none [255, 0, 0, 0, 255, 0])
          (create_optimized_palette_lookup [255, 0, 0, 0, 255, 0])
          ((none : Option ℕ).getD 0))
        none [255, 0, 0, 0, 255, 0] =
      convert_to_rgba_optimized [1] none [255, 0, 0, 0, 255, 0] :=
  ⟨⟨by decide, by decide, by decide, by decide⟩,
    C5_roundtrip [255, 0, 0, 0, 255, 0] none 1 (by decide) (by decide) (by decide)
      (by decide)⟩

/-- The cover-branch half of C7 is false of the program: at source
921 × 487 with the default configuration the f32 computation takes the
cover branch (aspect about 1.8912 at least target aspect about 1.8900),
picks scale = RN(491 / 487) = (2^23 + 68900) / 2^23, whose exact product
with 487 is 491 - 132 / 2^23 — about 0.52 ulp below 491 — so the f32
multiplication rounds down to 491 - 2^-15 and the `as u32` truncation
yields height 490, strictly below minimum_height = 491. -/
theorem C7_resize_counterexample :
    f32_le (f32_div (f32_ofNat default_config.container_width)
        (f32_ofNat (minimum_height default_config)))
      (f32_div (f32_ofNat 921) (f32_ofNat 487)) ∧
    f32_div (f32_ofNat 491) (f32_ofNat 487) = (8388608 + 68900, 8388608) ∧
    calculate_resize_dimensions default_config 921 487 = (928, 490) ∧
    490 < minimum_height default_config := by
  decide

/-- C7 amended: whenever the f32 computation takes the fit branch it
returns exactly container_width as the width; and in the cover branch
the exact-arithmetic idealization never returns a width below
container_width nor a height below minimum_height — a bound the actual
f32 evaluation can undershoot by the one truncated pixel exhibited in
the counterexample. -/
theorem C7_amended_resize (c : ImageConfig) (w h : ℕ) (hw : 0 < w) (hh : 0 < h)
    (_hmh : 0 < minimum_height c) :
    (¬ f32_le (f32_div (f32_ofNat c.container_width) (f32_ofNat (minimum_height c)))
        (f32_div (f32_ofNat w) (f32_ofNat h)) →
      (calculate_resize_dimensions c w h).1 = c.container_width) ∧
    ((c.container_width : ℚ) / (minimum_height c : ℚ) ≤ (w : ℚ) / (h : ℚ) →
      c.container_width ≤ (calculate_resize_dimensions_exact c w h).1 ∧
      minimum_height c ≤ (calculate_resize_dimensions_exact c w h).2) := by
  have hw0 : (w : ℚ) ≠ 0 := by
    have : (0 : ℚ) < (w : ℚ) := by exact_mod_cast hw
    exact ne_of_gt this
  have hh0 : (h : ℚ) ≠ 0 := by
    have : (0 : ℚ) < (h : ℚ) := by exact_mod_cast hh
    exact ne_of_gt this
  constructor
  · intro hfit
    simp only [calculate_resize_dimensions]
    rw [if_neg hfit]
  · intro hcover
    simp only [calculate_resize_dimensions_exact]
    rw [if_pos hcover]
    constructor
    · apply Nat.le_floor
      calc (c.container_width : ℚ)
          = (w : ℚ) * ((c.container_width : ℚ) / (w : ℚ)) := by
            rw [mul_comm, div_mul_cancel₀ _ hw0]
        _ ≤ (w : ℚ) * max ((c.container_width : ℚ) / (w : ℚ))
              ((minimum_height c : ℚ) / (h : ℚ)) := by
            apply mul_le_mul_of_nonneg_left (le_max_left _ _)
            positivity
    · apply Nat.le_floor
      calc (minimum_height c : ℚ)
          = (h : ℚ) * ((minimum_height c : ℚ) / (h : ℚ)) := by
            rw [mul_comm, div_mul_cancel₀ _ hh0]
        _ ≤ (h : ℚ) * max ((c.container_width : ℚ) / (w : ℚ))
              ((minimum_height c : ℚ) / (h : ℚ)) := by
            apply mul_le_mul_of_nonneg_left (le_max_right _ _)
            positivity

/-- Witness for C7_amended_resize: a 100 × 1000 source takes the f32 fit
branch and yields width 928, and a 928 × 491 source satisfies the exact
cover condition, both with the default configuration. -/
theorem C7_amended_resize_witness :
    0 < (100 : ℕ) ∧ 0 < (1000 : ℕ) ∧ 0 < minimum_height default_config ∧
    (calculate_resize_dimensions default_config 100 1000).1 =
      default_config.container_width ∧
    (default_config.container_width ≤
        (calculate_resize_dimensions_exact default_config 928 491).1 ∧
      minimum_height default_config ≤
        (calculate_resize_dimensions_exact default_config 928 491).2) := by
  have hmh : 0 < minimum_height default_config := by decide
  have hfit : ¬ f32_le (f32_div (f32_ofNat default_config.container_width)
      (f32_ofNat (minimum_height default_config)))
      (f32_div (f32_ofNat 100) (f32_ofNat 1000)) := by decide
  have hcov : (default_config.container_width : ℚ) / (minimum_height default_config : ℚ) ≤
      ((928 : ℕ) : ℚ) / ((491 : ℕ) : ℚ) := by
    norm_num [default_config, minimum_height, card_height]
  exact ⟨by decide, by decide, hmh,
    (C7_amended_resize default_config 100 1000 (by decide) (by decide) hmh).1 hfit,
    (C7_amended_resize default_config 928 491 (by decide) (by decide) hmh).2 hcov⟩

theorem try_map_ok_length {α β : Type} (f : α → Except Unit β) :
    ∀ (l : List α) (l2 : List β), try_map f l = Except.ok l2 → l2.length = l.length := by
  intro l
  induction l with
  | nil =>
    intro l2 h
    simp only [try_map] at h
    injection h with h2
    rw [← h2]
    rfl
  | cons a rest ih =>
    intro l2 h
    cases hfa : f a with
    | error e => simp [try_map, hfa] at h
    | ok b =>
      cases htr : try_map f rest with
      | error e => simp [try_map, hfa, htr] at h
      | ok bs =>
        simp only [try_map, hfa, htr] at h
        injection h with h2
        rw [← h2]
        simp [ih bs htr]

theorem try_map_ok_getD {α β : Type} (f : α → Except Unit β) (da : α) (db : β) :
    ∀ (l : List α) (l2 : List β), try_map f l = Except.ok l2 →
      ∀ k, k < l.length → f (l.getD k da) = Except.ok (l2.getD k db) := by
  intro l
  induction l with
  | nil =>
    intro l2 h k hk
    simp at hk
  | cons a rest ih =>
    intro l2 h k hk
    cases hfa : f a with
    | error e => simp [try_map, hfa] at h
    | ok b =>
      cases htr : try_map f rest with
      | error e => simp [try_map, hfa, htr] at h
      | ok bs =>
        simp only [try_map, hfa, htr] at h
        injection h with h2
        rw [← h2]
        cases k with
        | zero => simpa using hfa
        | succ m =>
          rw [List.getD_cons_succ, List.getD_cons_succ]
          exact ih bs htr m (by simp at hk; omega)

/-- C9: whenever the modelled crop_gif pipeline succeeds, it produces
exactly 6 cells, each holding exactly as many frames as the input in the
original decode order, and frame k of every cell carries the delay,
disposal, transparent index and needs_user_input flag of input frame k
unchanged, with top = 0, left = 0, width = cut_width and
height = cut_height (the cut sizes fit in u16 by hypothesis, as they do
for every sane configuration, so the u16 casts of the source are the
identity). -/
theorem C9_gif_metadata (c : ImageConfig) (encoder_palette : List ℕ)
    (lookup : List (ℕ × (ℕ × ℕ × ℕ))) (resample_crop : ℕ → List ℕ → List ℕ)
    (frames : List GifFrame) (cells : List (List GifFrame))
    (hcw : c.cut_width < 65536) (hch : c.cut_height < 65536)
    (hok : crop_gif_cells c encoder_palette lookup resample_crop frames =
      Except.ok cells) :
    cells.length = 6 ∧
    ∀ cell ∈ cells, cell.length = frames.length ∧
      ∀ k, k < frames.length →
        (cell.getD k dummy_frame).delay = (frames.getD k dummy_frame).delay ∧
        (cell.getD k dummy_frame).dispose = (frames.getD k dummy_frame).dispose ∧
        (cell.getD k dummy_frame).transparent =
          (frames.getD k dummy_frame).transparent ∧
        (cell.getD k dummy_frame).needs_user_input =
          (frames.getD k dummy_frame).needs_user_input ∧
        (cell.getD k dummy_frame).top = 0 ∧
        (cell.getD k dummy_frame).left = 0 ∧
        (cell.getD k dummy_frame).width = c.cut_width ∧
        (cell.getD k dummy_frame).height = c.cut_height := by
  have hlen6 : cells.length = 6 := by
    have := try_map_ok_length _ _ _ hok
    simpa using this
  refine ⟨hlen6, ?_⟩
  intro cell hcell
  obtain ⟨n, hn, hcelleq⟩ := List.mem_iff_getElem.mp hcell
  have houter := try_map_ok_getD _ 0 ([] : List GifFrame) (List.range 6) cells hok n
    (by simp; omega)
  have hrange : (List.range 6).getD n 0 = n := by
    rw [List.getD_eq_getElem?_getD, List.getElem?_range (by omega)]
    rfl
  rw [hrange] at houter
  have hcells_getD : cells.getD n [] = cell := by
    rw [List.getD_eq_getElem?_getD, List.getElem?_eq_getElem hn]
    simpa using hcelleq
  rw [hcells_getD] at houter
  have hclen : cell.length = frames.length := try_map_ok_length _ _ _ houter
  refine ⟨hclen, ?_⟩
  intro k hk
  have hinner := try_map_ok_getD _ dummy_frame dummy_frame frames cell houter k hk
  by_cases hcond : (frames.getD k dummy_frame).width *
      (frames.getD k dummy_frame).height * 4 ≤
      (convert_to_rgba_optimized (frames.getD k dummy_frame).buffer
        (frames.getD k dummy_frame).transparent encoder_palette).length
  · simp only [crop_gif_frame] at hinner
    rw [if_pos hcond] at hinner
    injection hinner with h2
    rw [← h2]
    exact ⟨rfl, rfl, rfl, rfl, rfl, rfl, Nat.mod_eq_of_lt hcw, Nat.mod_eq_of_lt hch⟩
  · simp only [crop_gif_frame] at hinner
    rw [if_neg hcond] at hinner
    simp at hinner

/-- Witness for C9_gif_metadata: a one-frame 1 × 1 animation over the
palette [9, 8, 7], a 8-wide configuration with 2 × 3 cuts, and the
identity as the resample-and-crop stage; all 6 cells succeed and the
frame metadata is carried over with top and left reset to 0. -/
theorem C9_gif_metadata_witness :
    (2 : ℕ) < 65536 ∧ (3 : ℕ) < 65536 ∧
    crop_gif_cells ⟨8, 2, 3, 0, 1, 0, 0⟩ [9, 8, 7]
        (create_optimized_palette_lookup [9, 8, 7]) (fun _ l => l)
        [⟨5, 2, none, true, 9, 8, 1, 1, [0]⟩] =
      Except.ok (List.replicate 6 [⟨5, 2, none, true, 0, 0, 2, 3, [0]⟩]) ∧
    (List.replicate 6 [(⟨5, 2, none, true, 0, 0, 2, 3, [0]⟩ : GifFrame)]).length = 6 ∧
    (([(⟨5, 2, none, true, 0, 0, 2, 3, [0]⟩ : GifFrame)]).getD 0 dummy_frame).delay =
      (([(⟨5, 2, none, true, 9, 8, 1, 1, [0]⟩ : GifFrame)]).getD 0 dummy_frame).delay ∧
    (([(⟨5, 2, none, true, 0, 0, 2, 3, [0]⟩ : GifFrame)]).getD 0 dummy_frame).width =
      (⟨8, 2, 3, 0, 1, 0, 0⟩ : ImageConfig).cut_width := by
  have hok : crop_gif_cells ⟨8, 2, 3, 0, 1, 0, 0⟩ [9, 8, 7]
      (create_optimized_palette_lookup [9, 8, 7]) (fun _ l => l)
      [⟨5, 2, none, true, 9, 8, 1, 1, [0]⟩] =
      Except.ok (List.replicate 6 [⟨5, 2, none, true, 0, 0, 2, 3, [0]⟩]) := by
    rfl
  have h := C9_gif_metadata ⟨8, 2, 3, 0, 1, 0, 0⟩ [9, 8, 7]
    (create_optimized_palette_lookup [9, 8, 7]) (fun _ l => l)
    [⟨5, 2, none, true, 9, 8, 1, 1, [0]⟩]
    (List.replicate 6 [⟨5, 2, none, true, 0, 0, 2, 3, [0]⟩])
    (by decide) (by decide) hok
  have hmem : [(⟨5, 2, none, true, 0, 0, 2, 3, [0]⟩ : GifFrame)] ∈
      List.replicate 6 [(⟨5, 2, none, true, 0, 0, 2, 3, [0]⟩ : GifFrame)] := by
    simp
  have hfields := (h.2 _ hmem).2 0 (by decide)
  exact ⟨by decide, by decide, hok, h.1, hfields.1, hfields.2.2.2.2.2.2.1⟩

/-- C10: the parallel quantization bug.  The 64-byte buffer
two_chunk_buffer splits into exactly two 32-byte chunks; rayon runs the
chunk tasks in an arbitrary order and each task appends its local result
to the Mutex-guarded shared vector on completion, so both chunk orders
are possible outcomes.  In the in-order schedule [0, 1] the k-th output
byte is the quantized index of the k-th pixel, but in the completion
order [1, 0] — a permutation of the chunk indices — byte 0 is 1 (white)
although pixel 0 is black, so the claimed property fails for that
interleaving: the code as written does not pin the per-chunk results to
their chunk positions. -/
theorem C10_mutex_order_bug :
    List.range ((two_chunk_buffer.length + 31) / 32) = [0, 1] ∧
    ([1, 0] : List ℕ).Perm [0, 1] ∧
    indexed_outcome two_chunk_buffer black_white_lookup 0 [0, 1] =
      convert_to_indexed_optimized two_chunk_buffer black_white_lookup 0 ∧
    convert_to_indexed_optimized two_chunk_buffer black_white_lookup 0 =
      (chunksOf 4 two_chunk_buffer).map (quantizePixel black_white_lookup 0) ∧
    (convert_to_indexed_optimized two_chunk_buffer black_white_lookup 0).getD 0 255 = 0 ∧
    (indexed_outcome two_chunk_buffer black_white_lookup 0 [1, 0]).getD 0 255 = 1 ∧
    indexed_outcome two_chunk_buffer black_white_lookup 0 [1, 0] ≠
      convert_to_indexed_optimized two_chunk_buffer black_white_lookup 0 := by
  decide
